import Mathlib

/-!
# Verification of the command-dispatch core (`rat_command.py`)

Shallow embedding of `src/packages/commands/rat_command.py`:
the fact grammar (a pyparsing expression), the fact resolver
(`handle_fact`), the registration machinery (`_register`, the `Command`
attrs dataclass with its validators) and the dispatcher (`trigger`).

Conventions of the embedding:
* Python strings are Lean `String`s; `str.casefold` is modelled by
  per-character lower-casing (the inputs of interest are ASCII, where the
  two agree), and `str.startswith` by a character-level prefix test.
* The module-global registry dict is modelled as an association list that
  is threaded explicitly; insertion appends, which matches dict semantics
  because an insertion only ever happens after a negative membership test.
* Awaitable storage calls (`fact_manager.exists` / `fact_manager.find`)
  are functions into `Except StorageError _`; the `try/except psycopg2.Error`
  block is an explicit `match` on that `Except`.
* Handlers are values of an abstract type `H`; the rule resolver
  (`get_rule`, imported from another module) is a function parameter.
* The prometheus counters/histograms are modelled as fields of the
  dispatch result (`missIncremented`) or as an explicit event trace
  (`MetricEvent`, for the per-command timing histogram).
-/

namespace RatCommand

/-- Python `str.casefold`, restricted to the ASCII inputs this module
compares (aliases, fact names, language codes): lower-case each
character. -/
def casefold (s : String) : String := String.mk (s.toList.map Char.toLower)

/-- Python `str.startswith`: the prefix test on the character sequence. -/
def startswith (s pre : String) : Bool := pre.toList.isPrefixOf s.toList

/-! ## The fact grammar

The source builds, with pyparsing:

`Word(alphanums)("name") + Optional(Suppress('-') + Word(alphas)("lang"))
 + ZeroOrMore(Word(alphanums + '_[]|?.<>{}-='))("subjects")`

and runs `pattern.parseString(words_eol[0])` (without `parseAll`, so only a
prefix of the line has to match).  pyparsing skips the default whitespace
characters (space, newline, tab) before every token, `Word` takes a maximal
non-empty run of its character set, and a failed `Optional` backtracks. -/

/-- pyparsing's default skippable whitespace characters. -/
def isWsChar (c : Char) : Bool := c = ' ' || c = '\n' || c = '\t'

/-- Skip leading whitespace, as pyparsing does before each token. -/
def skipWs (s : List Char) : List Char := s.dropWhile isWsChar

/-- Membership in pyparsing's `alphanums` (ASCII letters and digits). -/
def isAlphanumChar (c : Char) : Bool := c.isAlpha || c.isDigit

/-- Membership in pyparsing's `alphas` (ASCII letters). -/
def isAlphaChar (c : Char) : Bool := c.isAlpha

/-- The extra characters allowed in a subject token: `_[]|?.<>{}-=`. -/
def subjectExtra : List Char := "_[]|?.<>\x7b\x7d-=".toList

/-- Characters of a subject token: `alphanums + '_[]|?.<>{}-='`. -/
def isSubjectChar (c : Char) : Bool := isAlphanumChar c || subjectExtra.contains c

/-- pyparsing `Word(p)`: skip whitespace, then take a maximal non-empty run
of characters satisfying `p`; fail (`none`) if the run is empty. -/
def word (p : Char → Bool) (s : List Char) : Option (String × List Char) :=
  let s1 := skipWs s
  let tok := s1.takeWhile p
  if tok.isEmpty then none else some (tok.asString, s1.drop tok.length)

/-- `Optional(Suppress('-') + Word(alphas))`: on any failure the whole
group is skipped (pyparsing backtracks to the position before the `-`). -/
def matchLang (s : List Char) : Option (String × List Char) :=
  match skipWs s with
  | '-' :: r => word isAlphaChar r
  | _ => none

/-- `ZeroOrMore(Word(subject chars))`, fuelled for termination; each
successful `word` consumes at least one character, so `length + 1` fuel
always suffices. -/
def parseSubjectsAux : Nat → List Char → List String
  | 0, _ => []
  | n + 1, s =>
    match word isSubjectChar s with
    | none => []
    | some (t, r) => t :: parseSubjectsAux n r

/-- `ZeroOrMore(Word(alphanums + '_[]|?.<>{}-='))`. -/
def parseSubjects (s : List Char) : List String :=
  parseSubjectsAux (s.length + 1) s

/-- The result of a successful fact parse: the `name`, `lang` and
`subjects` results of the pyparsing expression. -/
structure ParsedFact where
  name : String
  lang : Option String
  subjects : List String
deriving DecidableEq, Repr

/-- `pattern.parseString(line)`: `none` models the `ParseException` path.
Only a prefix of the line needs to match (no `parseAll=True`), so trailing
text that fits no further subject token is discarded. -/
def parseFact (line : String) : Option ParsedFact :=
  match word isAlphanumChar line.toList with
  | none => none
  | some (n, rest) =>
    match matchLang rest with
    | some (l, rest2) => some ⟨n, some l, parseSubjects rest2⟩
    | none => some ⟨n, none, parseSubjects rest⟩

/-! ## The fact resolver (`handle_fact`) -/

/-- A `psycopg2.Error` raised by the storage layer. -/
structure StorageError where
  code : Nat
deriving DecidableEq, Repr

/-- A fact record as returned by the fact store (`fact.message` is all the
resolver reads from it). -/
structure FactRec where
  message : String
deriving DecidableEq, Repr

/-- The fact-store collaborator (`context.bot.fact_manager`): both calls
may fail with a storage error. -/
structure FactManager where
  exists' : String → String → Except StorageError Bool
  find : String → String → Except StorageError FactRec

/-- The reply string composed by `handle_fact`:
`f"{', '.join(users)}{': ' if users else ''}{fact.message}"`. -/
def factReply (users : List String) (message : String) : String :=
  String.intercalate ", " users ++ (if users.isEmpty then "" else ": ") ++ message

/-- The body of `handle_fact`'s `try:` block, covering both storage calls
(the existence check and the fetch) and the reply.  Returns the truthiness
of the Python return value together with the reply sent, if any. -/
def handle_fact_body (fm : FactManager) (p : ParsedFact) :
    Except StorageError (Bool × Option String) := do
  let lang := p.lang.getD "en"
  let ex ← fm.exists' (casefold p.name) (casefold lang)
  if !ex then
    return (false, none)
  let f ← fm.find (casefold p.name) (casefold lang)
  return (true, some (factReply p.subjects f.message))

/-- `handle_fact(context)`: parse `words_eol[0]`; a `ParseException`
returns `None` (modelled `none`); a `psycopg2.Error` anywhere in the `try:`
block is caught and turned into `False` with no reply. -/
def handle_fact (fm : FactManager) (line : String) : Option (Bool × Option String) :=
  match parseFact line with
  | none => none
  | some p =>
    match handle_fact_body fm p with
    | Except.ok r => some r
    | Except.error _ => some (false, none)

/-- Python truthiness of `handle_fact`'s return value (`None` and `False`
are falsy, `True` is truthy). -/
def factTruthy : Option (Bool × Option String) → Bool
  | some (true, _) => true
  | _ => false

/-! ## Registration (`_register`) and the `Command` dataclass -/

/-- One observation of the `TIME_IN_COMMAND` histogram, carrying the value
of its `command` label. -/
structure MetricEvent where
  label : String
deriving DecidableEq, Repr

/-- An arbitrary exception raised by a handler. -/
structure HandlerError where
  msg : String
deriving DecidableEq, Repr

section Handlers

variable {H : Type}

/-- `alias in _registered_commands` on the association-list registry. -/
def containsKey (reg : List (String × H)) (k : String) : Bool :=
  reg.any (fun p => p.1 == k)

/-- `_registered_commands[k]` guarded by membership (`lookup`): `none` for
an unknown name, never an error. -/
def lookupRegistry (reg : List (String × H)) (k : String) : Option H :=
  (reg.find? (fun p => p.1 == k)).map Prod.snd

/-- The insertion loop of `_register`: walk the (already case-folded)
names; raise `NameCollisionException` (modelled `Except.error` carrying the
colliding alias) on a hit, otherwise insert and continue.  The registry
state at the moment the exception is raised is returned alongside, because
the Python dict keeps the mutations made before the raise. -/
def regLoop (f : H) : List (String × H) → List String → Except String Unit × List (String × H)
  | reg, [] => (Except.ok (), reg)
  | reg, a :: rest =>
    if containsKey reg a then (Except.error a, reg)
    else regLoop f (reg ++ [(a, f)]) rest

/-- `names.foldl` insertion with no collision checking; used to describe
what `regLoop` leaves behind. -/
def insertAll (f : H) (reg : List (String × H)) (names : List String) :
    List (String × H) :=
  names.foldl (fun r a => r ++ [(a, f)]) reg

/-- `_register(func, names)` with `names` a list.  `callable` models
Python's `callable(func)` test (`func is None or not callable(func)`
returns `False` without touching the registry).  The result pairs the
returned value / raised exception with the registry state after the call. -/
def _register (f : H) (callable : Bool) (reg : List (String × H))
    (names : List String) : Except String Bool × List (String × H) :=
  let names := names.map casefold
  if !callable then (Except.ok false, reg)
  else
    match regLoop f reg names with
    | (Except.ok (), reg') => (Except.ok true, reg')
    | (Except.error a, reg') => (Except.error a, reg')

end Handlers

/-- The `Command` attrs dataclass, after validation.  The handler is a
function from its argument to a metric trace (events it records) and a
normal result or a raised exception.  The permission field is not modelled
(no claim touches it). -/
structure Command (α β : Type) where
  underlying : α → List MetricEvent × Except HandlerError β
  aliases : List String
  require_channel : Bool := false
  require_direct_message : Bool := false

/-- `truthy_validator(inst, attribute, value)`: the validation passes iff
the attribute value (the whole alias tuple) is truthy; for a tuple that
means non-empty.  Members are not inspected. -/
def truthy_validator (value : List String) : Bool := !value.isEmpty

/-- Constructing a `Command`: attrs runs the validators in field order —
`is_callable` on `underlying` (a non-callable object is modelled as
`none`), then on `aliases` the `deep_iterable` validator (membership in
`str` and tuple-ness, enforced here by the types) and `truthy_validator`. -/
def mkCommand {α β : Type}
    (underlying : Option (α → List MetricEvent × Except HandlerError β))
    (aliases : List String) : Except String (Command α β) :=
  match underlying with
  | none => Except.error "is_callable"
  | some f =>
    if truthy_validator aliases then Except.ok ⟨f, aliases, false, false⟩
    else Except.error "truthy_validator"

/-- `Except.isOk` spelt out for the validation result. -/
def exceptIsOk {ε α : Type} : Except ε α → Bool
  | Except.ok _ => true
  | Except.error _ => false

/-- The `with TIME_IN_COMMAND.labels(command=label).time():` block: the
context manager's `__exit__` observes the histogram whether the body
returned or raised, so the observation is appended to the body's trace on
both paths, and the body's outcome is passed through unchanged. -/
def timeLabeled {β : Type} (label : String)
    (body : List MetricEvent × Except HandlerError β) :
    List MetricEvent × Except HandlerError β :=
  (body.1 ++ [⟨label⟩], body.2)

/-- `Command.__call__`: run the underlying handler inside the timing block
labelled with `self.aliases[0]`. -/
def Command.call {α β : Type} (c : Command α β) (args : α) :
    List MetricEvent × Except HandlerError β :=
  timeLabeled (c.aliases.headD "") (c.underlying args)

/-! ## The dispatcher (`trigger`) -/

/-- The slice of a `Context` the dispatcher inspects: the word-tokenized
line, the rest-of-line views, and the prefix flag.  Tokenization happened
upstream. -/
structure Context where
  words : List String
  words_eol : List String
  prefixed : Bool

/-- `ctx.words[0]`. -/
def Context.word0 (ctx : Context) : String := ctx.words.headD ""

/-- `ctx.words_eol[0]` (the rest of the line from the first word on). -/
def Context.eol0 (ctx : Context) : String := ctx.words_eol.headD ""

/-- Everything externally observable about one `trigger` run: which
handler was awaited with which extra args, whether (and with which
`prefixless` flag) `get_rule` was consulted, whether `handle_fact` ran,
the reply it sent, and whether `TRIGGER_MISS` was incremented. -/
structure TriggerResult (H : Type) where
  invoked : Option (H × List String)
  ruleQuery : Option Bool
  factAttempted : Bool
  reply : Option String
  missIncremented : Bool

section Dispatch

variable {H : Type}

/-- Steps 2–4 of the precedence chain (the `if ctx.prefixed:` ladder):
returns the selected handler, the extra args, and the `prefixless` flag
passed to `get_rule` if it was consulted (`none` = not consulted). -/
def selectHandler (reg : List (String × H))
    (getRule : List String → List String → Bool → Option H × List String)
    (ctx : Context) : Option H × List String × Option Bool :=
  if ctx.prefixed then
    match lookupRegistry reg (casefold ctx.word0) with
    | some h => (some h, [], none)
    | none =>
      let r := getRule ctx.words ctx.words_eol false
      (r.1, r.2, some false)
  else
    let r := getRule ctx.words ctx.words_eol true
    (r.1, r.2, some true)

/-- `trigger(ctx)`: the empty-message guard, the command/rule ladder, the
`"Incoming Client:"` override, handler invocation, the prefixed-only fact
fallback, and the `TRIGGER_MISS` increment. -/
def trigger (reg : List (String × H))
    (getRule : List String → List String → Bool → Option H × List String)
    (ratmama : H) (fm : FactManager) (ctx : Context) : TriggerResult H :=
  if ctx.eol0 = "" then
    ⟨none, none, false, none, false⟩
  else
    let s := selectHandler reg getRule ctx
    let sel := if startswith ctx.eol0 "Incoming Client:" then some ratmama else s.1
    match sel with
    | some h => ⟨some (h, s.2.1), s.2.2, false, none, false⟩
    | none =>
      if ctx.prefixed then
        let fr := handle_fact fm ctx.eol0
        ⟨none, s.2.2, true,
          (match fr with | some (_, r) => r | none => none),
          !factTruthy fr⟩
      else
        ⟨none, s.2.2, false, none, true⟩

end Dispatch

/-! ## Concrete fixtures used to instantiate the theorems -/

/-- A fact store that reports no fact and fails any fetch. -/
def nullStore : FactManager :=
  ⟨fun _ _ => Except.ok false, fun _ _ => Except.error ⟨0⟩⟩

/-- A fact store whose `exists` succeeds and whose `find` raises. -/
def errStore : FactManager :=
  ⟨fun _ _ => Except.ok true, fun _ _ => Except.error ⟨3⟩⟩

/-- A fact store holding exactly the fact `("n", "en")` with message `"msg"`. -/
def okStore : FactManager :=
  ⟨fun n l => Except.ok (n == "n" && l == "en"), fun _ _ => Except.ok ⟨"msg"⟩⟩

/-- A rule resolver that matches everything (to witness command precedence). -/
def demoRule : List String → List String → Bool → Option String × List String :=
  fun _ _ _ => (some "rh", ["arg"])

/-- A rule resolver that never matches. -/
def nullRule : List String → List String → Bool → Option String × List String :=
  fun _ _ _ => (none, [])

/-- A prefixed context whose first word matches the registry entry `"go"`. -/
def demoCtx : Context := ⟨["Go", "x"], ["Go x", "x"], true⟩

/-- A registry with the single alias `"go"`. -/
def demoReg : List (String × String) := [("go", "gh")]

/-- A prefixed context carrying the announcement sentinel. -/
def annCtx : Context :=
  ⟨["Incoming", "Client:", "foo"], ["Incoming Client: foo", "Client: foo", "foo"], true⟩

/-- A non-prefixed context matched by no rule. -/
def noPrefCtx : Context := ⟨["hello"], ["hello"], false⟩

/-- A context whose first rest-of-line token is empty. -/
def emptyCtx : Context := ⟨[""], [""], true⟩

/-- A trivially succeeding handler, used as a callable construction input. -/
def unitHandler : Unit → List MetricEvent × Except HandlerError Unit :=
  fun _ => ([], Except.ok ())

/-- A command whose handler raises, used to witness error propagation. -/
def failingCommand : Command Unit Unit :=
  { underlying := fun _ => ([], Except.error ⟨"boom"⟩), aliases := ["prime", "alt"] }

/-! ## Helper lemmas -/

/-- Running the registration loop on an appended list first runs the
prefix; if the prefix raised no collision, the suffix continues from the
registry the prefix left behind. -/
theorem regLoop_append {H : Type} (f : H) (reg : List (String × H))
    (pre rest : List String) (h : (regLoop f reg pre).1 = Except.ok ()) :
    regLoop f reg (pre ++ rest) = regLoop f (regLoop f reg pre).2 rest := by
  induction pre generalizing reg with
  | nil => simp [regLoop]
  | cons a t ih =>
    by_cases hc : containsKey reg a
    · simp [regLoop, hc] at h
    · simp only [regLoop, hc, Bool.false_eq_true, if_false, List.cons_append] at h ⊢
      exact ih _ h

/-- A collision-free registration loop inserts exactly its names, in
order, at the end of the registry. -/
theorem regLoop_ok_insertAll {H : Type} (f : H) (reg : List (String × H))
    (pre : List String) (h : (regLoop f reg pre).1 = Except.ok ()) :
    (regLoop f reg pre).2 = insertAll f reg pre := by
  induction pre generalizing reg with
  | nil => simp [regLoop, insertAll]
  | cons a t ih =>
    by_cases hc : containsKey reg a
    · simp [regLoop, hc] at h
    · simp only [regLoop, hc, Bool.false_eq_true, if_false] at h ⊢
      simpa [insertAll] using ih _ h

/-- `Word p` succeeds whenever the character after whitespace-skipping
satisfies `p`. -/
theorem word_isSome_of_head {p : Char → Bool} {s : List Char} {c : Char}
    {cs : List Char} (h : skipWs s = c :: cs) (hc : p c = true) :
    (word p s).isSome = true := by
  unfold word
  rw [h]
  simp [List.takeWhile_cons, hc]

/-! ## Claim theorems -/

/-- C8: when the first rest-of-line token is the empty string, `trigger`
returns immediately: no handler invocation, no rule query, no fact
resolution, no reply, and no `TRIGGER_MISS` increment. -/
theorem trigger_empty_message_guard {H : Type} (reg : List (String × H))
    (getRule : List String → List String → Bool → Option H × List String)
    (ratmama : H) (fm : FactManager) (ctx : Context)
    (he : ctx.eol0 = "") :
    trigger reg getRule ratmama fm ctx = ⟨none, none, false, none, false⟩ := by
  unfold trigger
  simp [he]

/-- Witness for C8 at a concrete empty-line context. -/
theorem trigger_empty_message_guard_witness :
    emptyCtx.eol0 = "" ∧
    trigger demoReg demoRule "ratmama" nullStore emptyCtx =
      ⟨none, none, false, none, false⟩ :=
  ⟨rfl, trigger_empty_message_guard demoReg demoRule "ratmama" nullStore emptyCtx rfl⟩

/-- C2: whenever the first rest-of-line token starts with
`"Incoming Client:"`, the handler `trigger` invokes is the announcement
handler, overriding whatever the earlier precedence steps selected. -/
theorem trigger_announcement_override {H : Type} (reg : List (String × H))
    (getRule : List String → List String → Bool → Option H × List String)
    (ratmama : H) (fm : FactManager) (ctx : Context)
    (hstart : startswith ctx.eol0 "Incoming Client:" = true) :
    (trigger reg getRule ratmama fm ctx).invoked.map Prod.fst = some ratmama := by
  have hne : ctx.eol0 ≠ "" := by
    intro h0
    rw [h0] at hstart
    exact absurd hstart (by decide)
  unfold trigger
  simp [hne, hstart]

/-- Witness for C2: the sentinel line overrides even a registered command
(`"incoming"` is in the registry) and a rule match. -/
theorem trigger_announcement_override_witness :
    startswith annCtx.eol0 "Incoming Client:" = true ∧
    (trigger [("incoming", "cmdh")] demoRule "ratmama" nullStore annCtx).invoked.map
      Prod.fst = some "ratmama" :=
  ⟨by decide,
   trigger_announcement_override [("incoming", "cmdh")] demoRule "ratmama" nullStore
     annCtx (by decide)⟩

/-- C1: with the prefixed flag set and the case-folded first word a
registry key, the precedence ladder selects that registered command with
an empty extra-args tuple, `get_rule` is never consulted (for any rule
resolver, including one that would match), and — unless the announcement
sentinel overrides — that command is the handler invoked. -/
theorem trigger_command_precedence {H : Type} (reg : List (String × H))
    (getRule : List String → List String → Bool → Option H × List String)
    (ratmama : H) (fm : FactManager) (ctx : Context) (h : H)
    (hpre : ctx.prefixed = true)
    (hlook : lookupRegistry reg (casefold ctx.word0) = some h) :
    selectHandler reg getRule ctx = (some h, [], none) ∧
    (trigger reg getRule ratmama fm ctx).ruleQuery = none ∧
    (ctx.eol0 ≠ "" →
      startswith ctx.eol0 "Incoming Client:" = false →
      (trigger reg getRule ratmama fm ctx).invoked = some (h, [])) := by
  have hs : selectHandler reg getRule ctx = (some h, [], none) := by
    simp [selectHandler, hpre, hlook]
  refine ⟨hs, ?_, ?_⟩
  · unfold trigger
    by_cases he : ctx.eol0 = ""
    · simp [he]
    · by_cases hstart : startswith ctx.eol0 "Incoming Client:"
      · simp [he, hs, hstart]
      · simp [he, hs, hstart]
  · intro he hstart
    unfold trigger
    simp [he, hs, hstart]

/-- Witness for C1: `"Go x"` with alias `"go"` registered beats a rule
resolver that matches everything. -/
theorem trigger_command_precedence_witness :
    demoCtx.prefixed = true ∧
    lookupRegistry demoReg (casefold demoCtx.word0) = some "gh" ∧
    (selectHandler demoReg demoRule demoCtx = (some "gh", [], none) ∧
     (trigger demoReg demoRule "ratmama" nullStore demoCtx).ruleQuery = none ∧
     (demoCtx.eol0 ≠ "" →
       startswith demoCtx.eol0 "Incoming Client:" = false →
       (trigger demoReg demoRule "ratmama" nullStore demoCtx).invoked =
         some ("gh", []))) :=
  ⟨rfl, by decide,
   trigger_command_precedence demoReg demoRule "ratmama" nullStore demoCtx "gh"
     rfl (by decide)⟩

/-- C7: with the line non-empty, no announcement sentinel and no handler
selected by the precedence ladder, the fact resolver runs iff the context
is prefixed, and a non-prefixed miss increments the counter without
touching the fact resolver. -/
theorem trigger_fact_fallback_iff_prefixed {H : Type} (reg : List (String × H))
    (getRule : List String → List String → Bool → Option H × List String)
    (ratmama : H) (fm : FactManager) (ctx : Context)
    (hne : ctx.eol0 ≠ "")
    (hstart : startswith ctx.eol0 "Incoming Client:" = false)
    (hnosel : (selectHandler reg getRule ctx).1 = none) :
    (trigger reg getRule ratmama fm ctx).factAttempted = ctx.prefixed ∧
    (ctx.prefixed = false →
      (trigger reg getRule ratmama fm ctx).factAttempted = false ∧
      (trigger reg getRule ratmama fm ctx).missIncremented = true) := by
  unfold trigger
  cases hp : ctx.prefixed <;> simp [hne, hstart, hnosel, hp]

/-- Witness for C7 at a non-prefixed context with no matching rule: the
fact resolver is skipped and the miss counter is incremented. -/
theorem trigger_fact_fallback_iff_prefixed_witness :
    noPrefCtx.eol0 ≠ "" ∧
    startswith noPrefCtx.eol0 "Incoming Client:" = false ∧
    (selectHandler ([] : List (String × String)) nullRule noPrefCtx).1 = none ∧
    ((trigger ([] : List (String × String)) nullRule "ratmama" nullStore
        noPrefCtx).factAttempted = noPrefCtx.prefixed ∧
     (noPrefCtx.prefixed = false →
       (trigger ([] : List (String × String)) nullRule "ratmama" nullStore
         noPrefCtx).factAttempted = false ∧
       (trigger ([] : List (String × String)) nullRule "ratmama" nullStore
         noPrefCtx).missIncremented = true)) :=
  ⟨by decide, by decide, rfl,
   trigger_fact_fallback_iff_prefixed [] nullRule "ratmama" nullStore noPrefCtx
     (by decide) (by decide) rfl⟩

/-- C3 counterexample: registering `["a", "B"]` against a registry that
already holds `"b"` raises the collision, yet `"a"` stays registered — the
registry is not left as it was before the call. -/
theorem register_not_atomic_cex :
    (_register "g" true [("b", "f")] ["a", "B"]).1 = Except.error "b" ∧
    (_register "g" true [("b", "f")] ["a", "B"]).2 ≠ [("b", "f")] := by
  constructor
  · rfl
  · decide

/-- C3 amended: a colliding registration call raises the collision error
naming the first colliding (case-folded) alias, but the aliases earlier in
the list have already been inserted and remain: the final registry is the
original extended with exactly the pre-collision prefix. -/
theorem register_collision_partial {H : Type} (f : H) (reg : List (String × H))
    (names pre : List String) (a : String) (post : List String)
    (hsplit : names.map casefold = pre ++ a :: post)
    (hpre : (regLoop f reg pre).1 = Except.ok ())
    (hcol : containsKey (regLoop f reg pre).2 a = true) :
    (_register f true reg names).1 = Except.error a ∧
    (_register f true reg names).2 = insertAll f reg pre := by
  have hap := regLoop_append f reg pre (a :: post) hpre
  have hin := regLoop_ok_insertAll f reg pre hpre
  unfold _register
  rw [hsplit]
  simp only [Bool.not_true, Bool.false_eq_true, if_false]
  rw [hap, hin]
  rw [hin] at hcol
  simp [regLoop, hcol]

/-- Witness for the amended C3 at the counterexample input. -/
theorem register_collision_partial_witness :
    ["a", "B"].map casefold = ["a"] ++ "b" :: [] ∧
    (regLoop "g" [("b", "f")] ["a"]).1 = Except.ok () ∧
    containsKey (regLoop "g" [("b", "f")] ["a"]).2 "b" = true ∧
    ((_register "g" true [("b", "f")] ["a", "B"]).1 = Except.error "b" ∧
     (_register "g" true [("b", "f")] ["a", "B"]).2 =
       insertAll "g" [("b", "f")] ["a"]) :=
  ⟨by decide, rfl, by decide,
   register_collision_partial "g" [("b", "f")] ["a", "B"] ["a"] "b" []
     (by decide) rfl (by decide)⟩

/-- C4 counterexample: a tuple containing only the empty-string alias is
truthy (it is a non-empty tuple), members are not inspected, so
construction succeeds where the claim demands rejection. -/
theorem mkCommand_empty_string_alias_accepted :
    exceptIsOk (mkCommand (some unitHandler) [""]) = true := rfl

/-- C4 amended: construction fails validation iff the handler is not
callable or the alias tuple is empty; falsy entries inside a non-empty
tuple are not checked, so an empty-string alias is accepted. -/
theorem mkCommand_isOk_iff {α β : Type}
    (u : Option (α → List MetricEvent × Except HandlerError β))
    (aliases : List String) :
    exceptIsOk (mkCommand u aliases) = (u.isSome && !aliases.isEmpty) := by
  cases u <;> cases aliases <;>
    simp [mkCommand, exceptIsOk, truthy_validator]

/-- C9: `Command.__call__` appends one `TIME_IN_COMMAND` observation
labelled with the primary alias to the handler's trace — on the success
path and on the raise path alike — and passes the handler's outcome
through unchanged. -/
theorem command_call_times_and_propagates {α β : Type} (c : Command α β)
    (args : α) (a : String) (rest : List String) (h : c.aliases = a :: rest) :
    (Command.call c args).1 = (c.underlying args).1 ++ [⟨a⟩] ∧
    (Command.call c args).2 = (c.underlying args).2 := by
  simp [Command.call, timeLabeled, h]

/-- Witness for C9 on a command whose handler raises: the observation is
still recorded and the error propagates unchanged. -/
theorem command_call_times_and_propagates_witness :
    failingCommand.aliases = "prime" :: ["alt"] ∧
    ((Command.call failingCommand ()).1 =
       (failingCommand.underlying ()).1 ++ [⟨"prime"⟩] ∧
     (Command.call failingCommand ()).2 = (failingCommand.underlying ()).2) :=
  ⟨rfl, command_call_times_and_propagates failingCommand () "prime" ["alt"] rfl⟩

/-- C5: a storage error raised by the existence check, or by the fetch
after the existence check returned true, is caught inside `handle_fact`,
which returns the falsy `False` with no reply; the error never escapes. -/
theorem handle_fact_storage_error_no_result (fm : FactManager) (line : String)
    (p : ParsedFact) (e : StorageError)
    (hp : parseFact line = some p)
    (herr : fm.exists' (casefold p.name) (casefold (p.lang.getD "en")) =
        Except.error e ∨
      (fm.exists' (casefold p.name) (casefold (p.lang.getD "en")) =
          Except.ok true ∧
        fm.find (casefold p.name) (casefold (p.lang.getD "en")) =
          Except.error e)) :
    handle_fact fm line = some (false, none) := by
  unfold handle_fact
  rw [hp]
  rcases herr with h1 | ⟨h1, h2⟩
  · simp [handle_fact_body, h1, bind, Except.bind]
  · simp [handle_fact_body, h1, h2, bind, Except.bind, Functor.map, Except.map,
      pure, Except.pure]

/-- Witness for C5: a store whose fetch raises after a positive existence
check degrades to no result. -/
theorem handle_fact_storage_error_witness :
    parseFact "fact user" = some ⟨"fact", none, ["user"]⟩ ∧
    (errStore.exists' (casefold "fact")
        (casefold ((none : Option String).getD "en")) = Except.ok true ∧
      errStore.find (casefold "fact")
        (casefold ((none : Option String).getD "en")) = Except.error ⟨3⟩) ∧
    handle_fact errStore "fact user" = some (false, none) :=
  ⟨by decide, ⟨rfl, rfl⟩,
   handle_fact_storage_error_no_result errStore "fact user"
     ⟨"fact", none, ["user"]⟩ ⟨3⟩ (by decide) (Or.inr ⟨rfl, rfl⟩)⟩

/-- C6: when the parsed (case-folded) name and language — language
defaulting to `"en"` — exist with message `m`, the resolver replies with
the comma-joined subjects, then `": "` iff at least one subject was
parsed, then `m`. -/
theorem handle_fact_reply_composition (fm : FactManager) (line : String)
    (p : ParsedFact) (m : String)
    (hp : parseFact line = some p)
    (hex : fm.exists' (casefold p.name) (casefold (p.lang.getD "en")) =
      Except.ok true)
    (hfind : fm.find (casefold p.name) (casefold (p.lang.getD "en")) =
      Except.ok ⟨m⟩) :
    handle_fact fm line =
      some (true, some (String.intercalate ", " p.subjects ++
        (if p.subjects.isEmpty then "" else ": ") ++ m)) := by
  unfold handle_fact
  rw [hp]
  simp [handle_fact_body, hex, hfind, factReply, bind, Except.bind, Functor.map,
    Except.map, pure, Except.pure]

/-- Witness for C6: `"n user1 user2"` yields exactly `"user1, user2: msg"`
and `"n"` yields exactly `"msg"`. -/
theorem handle_fact_reply_composition_witness :
    parseFact "n user1 user2" = some ⟨"n", none, ["user1", "user2"]⟩ ∧
    parseFact "n" = some ⟨"n", none, []⟩ ∧
    handle_fact okStore "n user1 user2" = some (true, some "user1, user2: msg") ∧
    handle_fact okStore "n" = some (true, some "msg") :=
  ⟨by decide, by decide,
   (handle_fact_reply_composition okStore "n user1 user2"
       ⟨"n", none, ["user1", "user2"]⟩ "msg" (by decide) rfl rfl).trans (by decide),
   (handle_fact_reply_composition okStore "n" ⟨"n", none, []⟩ "msg"
       (by decide) rfl rfl).trans (by decide)⟩

/-- C10: any line whose first whitespace-separated token starts with an
alphanumeric character parses as a fact (the grammar only has to match a
prefix of the line), and trailing text outside the subject character set
is silently dropped: `"go bar!baz now"` parses with subjects `["bar"]`, a
strict prefix of the remaining tokens. -/
theorem parseFact_total_on_alnum_start (line : String) (c : Char)
    (cs : List Char) (hhead : skipWs line.toList = c :: cs)
    (halnum : isAlphanumChar c = true) :
    (parseFact line).isSome = true ∧
    parseFact "go bar!baz now" = some ⟨"go", none, ["bar"]⟩ := by
  constructor
  · obtain ⟨⟨t, r⟩, hw⟩ :=
      Option.isSome_iff_exists.mp (word_isSome_of_head hhead halnum)
    unfold parseFact
    rw [hw]
    rcases hm : matchLang r with _ | ⟨l, r2⟩ <;> simp [hm]
  · decide

/-- Witness for C10 at `"x!y"`: the first token starts alphanumeric, so
the parse succeeds even though `'!'` fits no token. -/
theorem parseFact_total_on_alnum_start_witness :
    skipWs "x!y".toList = 'x' :: ['!', 'y'] ∧
    isAlphanumChar 'x' = true ∧
    ((parseFact "x!y").isSome = true ∧
     parseFact "go bar!baz now" = some ⟨"go", none, ["bar"]⟩) :=
  ⟨by decide, by decide,
   parseFact_total_on_alnum_start "x!y" 'x' ['!', 'y'] (by decide) (by decide)⟩

end RatCommand
